import Mathlib

/-!
Verification of the pole-sport rulebook table-extraction pipeline
(`parse.py`): page-geometry resolvers, criteria-text parsing with
alias reconciliation, category derivation, per-page record building,
catalogue assembly and the final numeric-coercion/export stage.

Python strings are modelled as Lean `String`s, and the string
operations the source uses (`strip`, `lstrip`, `split`, `lower`,
`replace`, `startswith`, `in`) are embedded as structurally recursive
functions over the underlying character lists so that every
definition evaluates inside the kernel.  Python `dict`s (which
preserve insertion order, overwrite in place, and append on
`setdefault`) are modelled as association lists with exactly those
operations.
-/

/-- Python whitespace set used by `str.strip()`. -/
def isPySpace (c : Char) : Bool :=
  c == ' ' || c == '\t' || c == '\n' || c == '\r' || c == '\x0b' || c == '\x0c'

/-- `str.strip()` on a character list: drop leading and trailing whitespace. -/
def pyStripList (cs : List Char) : List Char :=
  ((cs.dropWhile isPySpace).reverse.dropWhile isPySpace).reverse

/-- Python `text.strip()`. -/
def pyStrip (s : String) : String :=
  String.mk (pyStripList s.toList)

/-- Python `s.lstrip("- ")`: remove ALL leading characters drawn from the
set `{'-', ' '}` (an `lstrip` argument is a character set, not a prefix). -/
def pyLstripDashSpace (s : String) : String :=
  String.mk (s.toList.dropWhile (fun c => c == '-' || c == ' '))

/-- Python `text.split("\x7bnewline\x7d- ")` specialised to the bullet
delimiter: greedy left-to-right split on each occurrence of the
three-character separator `'\n'`, `'-'`, `' '`.  `acc` holds the
characters of the current fragment in reverse. -/
def splitBullets : List Char → List Char → List (List Char)
  | '\n' :: '-' :: ' ' :: rest, acc => acc.reverse :: splitBullets rest []
  | c :: rest, acc => splitBullets rest (c :: acc)
  | [], acc => [acc.reverse]

/-- String-level wrapper for the bullet split. -/
def pySplitBullets (s : String) : List String :=
  (splitBullets s.toList []).map String.mk

/-- Python `bullet.split(":", 1)`: the part before the first `':'` and the
part after it. -/
def splitFirstColon (s : String) : String × String :=
  (String.mk (s.toList.takeWhile (fun c => !(c == ':'))),
   String.mk ((s.toList.dropWhile (fun c => !(c == ':'))).drop 1))

/-- Python `key.strip().lower().replace(" ", "_")`. -/
def canonicalizeKey (s : String) : String :=
  String.mk (((pyStripList s.toList).map Char.toLower).map
    (fun c => if c == ' ' then '_' else c))

/-- Python `s.startswith(p)`. -/
def strStartsWith (s p : String) : Bool :=
  p.toList.isPrefixOf s.toList

/-- `d.get(k)` on an insertion-ordered dict modelled as an association list. -/
def dictGet (d : List (String × String)) (k : String) : Option String :=
  (d.find? (fun p => p.1 == k)).map Prod.snd

/-- `d[k] = v`: overwrite in place if the key is present (keeping its
position, as Python dicts do), otherwise append at the end. -/
def dictInsert (d : List (String × String)) (k v : String) :
    List (String × String) :=
  if (dictGet d k).isSome then
    d.map (fun p => if p.1 == k then (k, v) else p)
  else d ++ [(k, v)]

/-- `d.setdefault(k, v)`: insert at the end only when the key is absent. -/
def dictSetdefault (d : List (String × String)) (k v : String) :
    List (String × String) :=
  if (dictGet d k).isSome then d else d ++ [(k, v)]

/-- `d.pop(k, None)`: remove the entry with key `k` when present. -/
def dictPop (d : List (String × String)) (k : String) :
    List (String × String) :=
  d.filter (fun p => !(p.1 == k))

/-- Body of the raw-parsing loop of `parse_criteria`: a bullet containing
`':'` is split on the first `':'`, its key canonicalized and its value
trimmed, and the pair stored; a bullet with no `':'` is dropped. -/
def processBullet (d : List (String × String)) (bullet : String) :
    List (String × String) :=
  if bullet.toList.contains ':' then
    let kv := splitFirstColon bullet
    dictInsert d (canonicalizeKey kv.1) (pyStrip kv.2)
  else d

/-- The bullet fragments of a criteria text: trim, split on the bullet
delimiter, and `lstrip("- ")` the first fragment
(`bullets[0] = bullets[0].lstrip("- ")` in the source). -/
def bulletsOf (text : String) : List String :=
  match pySplitBullets (pyStrip text) with
  | [] => []
  | b :: rest => pyLstripDashSpace b :: rest

/-- The raw key/value parsing phase of `parse_criteria` (before alias
reconciliation). -/
def rawParseCriteria (text : String) : List (String × String) :=
  (bulletsOf text).foldl processBullet []

/-- The `bad_columns` alias table of `parse_criteria`, in source order. -/
def badColumns : List (String × String) :=
  [("grip/arm_position", "arm_position/grip"),
   ("arm/position_grip", "arm_position/grip"),
   ("arm_position_/_grip", "arm_position/grip"),
   ("angle_of_the_split", "angle_of_split"),
   ("-_angle_of_split", "angle_of_split"),
   ("-_body_position", "body_position"),
   ("grip_is", "grip")]

/-- One step of alias reconciliation: when the malformed key is present,
`setdefault` its value under the canonical key and `pop` the malformed
key. -/
def applyAlias (d : List (String × String)) (pair : String × String) :
    List (String × String) :=
  match dictGet d pair.1 with
  | some v => dictPop (dictSetdefault d pair.2 v) pair.1
  | none => d

/-- `parse_criteria` from `parse.py`: raw bullet parsing followed by the
fold over the `bad_columns` alias table. -/
def parse_criteria (text : String) : List (String × String) :=
  badColumns.foldl applyAlias (rawParseCriteria text)

/-- `get_category` from `parse.py`: ordered prefix tests on the code. -/
def get_category (code : String) : String :=
  if strStartsWith code "SP" then "spin"
  else if strStartsWith code "ST" then "static"
  else if strStartsWith code "S" then "strength"
  else if strStartsWith code "F" then "flexibility"
  else "unknown"

/-- The `Boundaries` dataclass of `parse.py`. -/
structure Boundaries where
  left : Nat
  top : Nat
  right : Nat
  bottom : Nat
deriving DecidableEq

/-- `get_crop_boundaries` from `parse.py`: default `(35, 45, 565, 775)`,
with the top overridden on the section-header pages (the `match` on the
page number in the source). -/
def get_crop_boundaries (page_number : Nat) : Boundaries :=
  let boundaries : Boundaries := ⟨35, 45, 565, 775⟩
  if page_number = 26 then { boundaries with top := 210 }
  else if page_number = 54 ∨ page_number = 76 ∨ page_number = 84 then
    { boundaries with top := 75 }
  else boundaries

/-- `get_vertical_lines` from `parse.py`: two override sets, default
otherwise. -/
def get_vertical_lines (page_number : Nat) : List Nat :=
  if page_number = 29 ∨ page_number = 30 ∨ page_number = 31 ∨
     page_number = 32 ∨ page_number = 33 then
    [35, 75, 170, 305, 345, 564]
  else if page_number = 69 ∨ page_number = 70 ∨ page_number = 83 then
    [35, 75, 175, 305, 350, 560]
  else [35, 75, 175, 305, 350, 565]

/-- Page-range constants of `parse.py`. -/
def FIRST_FLEXIBILITY_PAGE : Nat := 26

def LAST_SPIN_SPIN_PAGE : Nat := 100

def FIRST_PAGE : Nat := FIRST_FLEXIBILITY_PAGE

def FIRST_PAGE_INDEX : Nat := FIRST_FLEXIBILITY_PAGE - 1

def LAST_PAGE_INDEX : Nat := LAST_SPIN_SPIN_PAGE

/-- One accumulated record, as it sits in the per-page dataframe after the
column assignments and the drop of the `element` (and stray glossary)
columns: `technicalValue` is still the raw cell string, `page_number` is
the loop's page number, and `image` and `category` are derived from the
code. -/
structure RawRecord where
  code : String
  name : String
  technicalValue : String
  criteria : List (String × String)
  page_number : Nat
  image : String
  category : String
deriving DecidableEq

/-- Build one record from a data row, mirroring the per-page dataframe
construction: cells are positional under the fixed column names
`code, name, element, technicalValue, criteria`; the criteria cell is
parsed, `page_number` attached, `image` and `category` derived from the
code, and the `element` cell dropped (the record has no field for it). -/
def buildRow (page_number : Nat) (row : List String) : RawRecord :=
  let code := row.getD 0 ""
  { code := code
    name := row.getD 1 ""
    technicalValue := row.getD 3 ""
    criteria := parse_criteria (row.getD 4 "")
    page_number := page_number
    image := "/images/" ++ code ++ ".jpg"
    category := get_category code }

/-- Per-page step of the extraction loop.  The extracted table is `none`
when the capability finds no grid; the source's `if not table` guard also
fires on an empty list.  In both cases the page contributes no records and
the warning `"No table found in page ..."` is emitted; otherwise the first
row is discarded as the header and each remaining row becomes a record in
source order. -/
def pageStep (table : Option (List (List String))) (page_number : Nat) :
    List RawRecord × List String :=
  match table with
  | none => ([], ["No table found in page " ++ toString page_number])
  | some [] => ([], ["No table found in page " ++ toString page_number])
  | some (_header :: rows) => (rows.map (buildRow page_number), [])

/-- The page numbers visited by the loop:
`enumerate(pdf.pages[FIRST_PAGE_INDEX:LAST_PAGE_INDEX], FIRST_PAGE)` walks
pages 26 through 100 in increasing order. -/
def pipelinePages : List Nat :=
  List.range' FIRST_PAGE (LAST_PAGE_INDEX - FIRST_PAGE_INDEX)

/-- The accumulation loop: a document is modelled as the function giving,
for each page number, the extracted table (or `none`).  Records are
appended page by page (`dfs.append` / `pd.concat`), warnings in emission
order. -/
def runPages (doc : Nat → Option (List (List String))) :
    List RawRecord × List String :=
  pipelinePages.foldl
    (fun acc pn =>
      (acc.1 ++ (pageStep (doc pn) pn).1, acc.2 ++ (pageStep (doc pn) pn).2))
    ([], [])

/-- Value of a list of decimal digit characters. -/
def digitsToNat (cs : List Char) : Nat :=
  cs.foldl (fun n c => 10 * n + (c.toNat - 48)) 0

/-- The discrete content of a parsed numeric literal: sign, integer-part
value, fractional-part value and length, and the decimal exponent. -/
structure FloatParts where
  negative : Bool
  intDigits : Nat
  fracDigits : Nat
  fracLen : Nat
  exp : Int
deriving DecidableEq

/-- The discrete half of the numeric-string coercion, modelling Python
`float(...)` (the `astype` conversion of `technicalValue`) on decimal
literals: optional surrounding whitespace, optional sign, decimal digits
with an optional fractional part and an optional decimal exponent.
Returns `none` when the string is not such a literal (the conversions
that raise `ValueError`). -/
def pyFloatParts (s : String) : Option FloatParts :=
  let cs := (pyStripList s.toList).map Char.toLower
  let signAndRest : Bool × List Char :=
    match cs with
    | '-' :: rest => (true, rest)
    | '+' :: rest => (false, rest)
    | _ => (false, cs)
  let body := signAndRest.2
  let mant := body.takeWhile (fun c => !(c == 'e'))
  let expPart := body.dropWhile (fun c => !(c == 'e'))
  let intPart := mant.takeWhile (fun c => !(c == '.'))
  let fracPart := (mant.dropWhile (fun c => !(c == '.'))).drop 1
  let mantOk := intPart.all Char.isDigit && fracPart.all Char.isDigit &&
    (!intPart.isEmpty || !fracPart.isEmpty)
  let expVal : Option Int :=
    match expPart with
    | [] => some 0
    | _ :: erest =>
      let esignAndDigits : Bool × List Char :=
        match erest with
        | '-' :: ds => (true, ds)
        | '+' :: ds => (false, ds)
        | ds => (false, ds)
      if esignAndDigits.2.all Char.isDigit && !esignAndDigits.2.isEmpty then
        some (if esignAndDigits.1 then -(digitsToNat esignAndDigits.2 : Int)
              else (digitsToNat esignAndDigits.2 : Int))
      else none
  match expVal, mantOk with
  | some e, true =>
    some { negative := signAndRest.1, intDigits := digitsToNat intPart,
           fracDigits := digitsToNat fracPart, fracLen := fracPart.length,
           exp := e }
  | _, _ => none

/-- The exact rational value of a parsed numeric literal. -/
def partsValue (p : FloatParts) : ℚ :=
  (if p.negative then -1 else 1) *
    ((p.intDigits : ℚ) + (p.fracDigits : ℚ) / (10 : ℚ) ^ p.fracLen) *
    (10 : ℚ) ^ p.exp

/-- Python `float(...)` as an exact-rational coercion. -/
def pyFloat (s : String) : Option ℚ :=
  (pyFloatParts s).map partsValue

/-- The final typed record after the batch coercion
(`df.astype({"technicalValue": float, "page_number": int})`):
`technicalValue` is now a number (modelled as an exact rational);
`page_number` is already an integer by construction in the loop, so its
coercion always succeeds. -/
structure ElementRecord where
  code : String
  name : String
  technicalValue : ℚ
  page_number : Nat
  image : String
  category : String
  criteria : List (String × String)
deriving DecidableEq

/-- Coerce one record; fails (like `astype`) when the technical value is
not a numeric string. -/
def coerceRecord (r : RawRecord) : Except String ElementRecord :=
  match pyFloat r.technicalValue with
  | some v =>
    .ok { code := r.code, name := r.name, technicalValue := v,
          page_number := r.page_number, image := r.image,
          category := r.category, criteria := r.criteria }
  | none => .error ("could not convert string to float: " ++ r.technicalValue)

/-- The batch coercion pass over the whole concatenated catalogue: either
every record coerces and the fully typed list is produced, or the run
fails with the first error and produces nothing.  The export
(`df.to_json`) runs only on the `.ok` result, so an `.error` outcome means
no artifact — partial or otherwise — is ever written. -/
def coerceCatalogue : List RawRecord → Except String (List ElementRecord)
  | [] => .ok []
  | r :: rest =>
    match coerceRecord r, coerceCatalogue rest with
    | .ok e, .ok es => .ok (e :: es)
    | .error msg, _ => .error msg
    | .ok _, .error msg => .error msg

/-- The artifact the run writes: the typed catalogue on success, nothing
on a coercion failure. -/
def exportedArtifact (e : Except String (List ElementRecord)) :
    Option (List ElementRecord) :=
  match e with
  | .ok a => some a
  | .error _ => none

/-- The whole run: accumulate over pages 26–100, then coerce and export. -/
def runExport (doc : Nat → Option (List (List String))) :
    Except String (List ElementRecord) :=
  coerceCatalogue (runPages doc).1

/-- Modelled from the spec wording of criteria-parsing step 1, for
comparison with the source behaviour: strip exactly one leading `"- "`
marker from the fragment when it is present, and otherwise leave the
fragment unchanged. -/
def stripOneLeadingMarker (s : String) : String :=
  if strStartsWith s "- " then String.mk (s.toList.drop 2) else s

lemma dictGet_cons (p : String × String) (d : List (String × String))
    (k : String) :
    dictGet (p :: d) k = if p.1 == k then some p.2 else dictGet d k := by
  simp only [dictGet, List.find?]
  cases h : p.1 == k <;> simp [h]

lemma dictGet_append_left (d e : List (String × String)) (k : String)
    (v : String) (h : dictGet d k = some v) : dictGet (d ++ e) k = some v := by
  induction d with
  | nil => simp [dictGet] at h
  | cons p rest ih =>
    rw [List.cons_append, dictGet_cons] at *
    split at h <;> simp_all [ih]

lemma dictGet_append_right (d e : List (String × String)) (k : String)
    (h : dictGet d k = none) : dictGet (d ++ e) k = dictGet e k := by
  induction d with
  | nil => rfl
  | cons p rest ih =>
    rw [List.cons_append, dictGet_cons] at *
    split at h <;> simp_all [ih]

lemma dictGet_pop_self (d : List (String × String)) (k : String) :
    dictGet (dictPop d k) k = none := by
  induction d with
  | nil => rfl
  | cons p rest ih =>
    simp only [dictPop, List.filter_cons] at *
    cases h : p.1 == k <;> simp_all [dictGet_cons, h]

lemma dictGet_pop_ne (d : List (String × String)) (k k' : String)
    (h : k' ≠ k) : dictGet (dictPop d k) k' = dictGet d k' := by
  induction d with
  | nil => rfl
  | cons p rest ih =>
    simp only [dictPop, List.filter_cons] at *
    cases hpk : p.1 == k
    · simp only [Bool.not_false, if_true, dictGet_cons]
      cases hpk' : p.1 == k' <;> simp_all [dictGet_cons]
    · have : ¬ p.1 == k' := by
        simp only [beq_iff_eq] at hpk ⊢
        rw [hpk]; exact fun hh => h hh.symm
      simp_all [dictGet_cons]

lemma dictGet_setdefault_ne (d : List (String × String)) (k v k' : String)
    (h : k' ≠ k) : dictGet (dictSetdefault d k v) k' = dictGet d k' := by
  unfold dictSetdefault
  split
  · rfl
  · cases hd : dictGet d k'
    · rw [dictGet_append_right _ _ _ hd, dictGet_cons]
      have hkk : ((k, v).1 == k') = false := by
        simp only [beq_eq_false_iff_ne, ne_eq]
        exact fun hh => h hh.symm
      simp [hkk, dictGet]
    · exact dictGet_append_left _ _ _ _ hd

lemma dictGet_setdefault_isSome (d : List (String × String)) (k v : String) :
    (dictGet (dictSetdefault d k v) k).isSome := by
  unfold dictSetdefault
  split
  · assumption
  · rename_i h
    rw [dictGet_append_right _ _ _ (by simpa using h), dictGet_cons]
    simp

lemma dictSetdefault_of_some (d : List (String × String)) (k v w : String)
    (h : dictGet d k = some w) : dictSetdefault d k v = d := by
  simp [dictSetdefault, h]

lemma applyAlias_get_fst (d : List (String × String)) (p : String × String) :
    dictGet (applyAlias d p) p.1 = none := by
  unfold applyAlias
  cases h : dictGet d p.1
  · exact h
  · exact dictGet_pop_self _ _

lemma applyAlias_preserves_some (d : List (String × String))
    (p : String × String) (x v : String) (hx : x ≠ p.1)
    (h : dictGet d x = some v) : dictGet (applyAlias d p) x = some v := by
  unfold applyAlias
  cases hg : dictGet d p.1
  · exact h
  · rw [dictGet_pop_ne _ _ _ hx]
    by_cases hsd : x = p.2
    · subst hsd
      rw [dictSetdefault_of_some _ _ _ _ h]
      exact h
    · rw [dictGet_setdefault_ne _ _ _ _ hsd]
      exact h

lemma applyAlias_preserves_none (d : List (String × String))
    (p : String × String) (x : String) (hx : x ≠ p.2)
    (h : dictGet d x = none) : dictGet (applyAlias d p) x = none := by
  unfold applyAlias
  cases hg : dictGet d p.1
  · exact h
  · by_cases hp : x = p.1
    · subst hp
      exact dictGet_pop_self _ _
    · rw [dictGet_pop_ne _ _ _ hp, dictGet_setdefault_ne _ _ _ _ hx]
      exact h

lemma applyAlias_preserves_isSome (d : List (String × String))
    (p : String × String) (x : String) (hx : x ≠ p.1)
    (h : (dictGet d x).isSome) : (dictGet (applyAlias d p) x).isSome := by
  obtain ⟨v, hv⟩ := Option.isSome_iff_exists.mp h
  rw [applyAlias_preserves_some d p x v hx hv]
  rfl

lemma foldl_applyAlias_preserves_some (pairs : List (String × String))
    (d : List (String × String)) (x v : String)
    (hx : ∀ p ∈ pairs, p.1 ≠ x) (h : dictGet d x = some v) :
    dictGet (pairs.foldl applyAlias d) x = some v := by
  induction pairs generalizing d with
  | nil => exact h
  | cons p rest ih =>
    rw [List.foldl_cons]
    exact ih _ (fun q hq => hx q (List.mem_cons_of_mem p hq))
      (applyAlias_preserves_some _ _ _ _
        (fun hh => hx p (List.mem_cons_self p rest) hh.symm) h)

lemma foldl_applyAlias_preserves_none (pairs : List (String × String))
    (d : List (String × String)) (x : String)
    (hx : ∀ p ∈ pairs, p.2 ≠ x) (h : dictGet d x = none) :
    dictGet (pairs.foldl applyAlias d) x = none := by
  induction pairs generalizing d with
  | nil => exact h
  | cons p rest ih =>
    rw [List.foldl_cons]
    exact ih _ (fun q hq => hx q (List.mem_cons_of_mem p hq))
      (applyAlias_preserves_none _ _ _
        (fun hh => hx p (List.mem_cons_self p rest) hh.symm) h)

lemma foldl_applyAlias_preserves_isSome (pairs : List (String × String))
    (d : List (String × String)) (x : String)
    (hx : ∀ p ∈ pairs, p.1 ≠ x) (h : (dictGet d x).isSome) :
    (dictGet (pairs.foldl applyAlias d) x).isSome := by
  induction pairs generalizing d with
  | nil => exact h
  | cons p rest ih =>
    rw [List.foldl_cons]
    exact ih _ (fun q hq => hx q (List.mem_cons_of_mem p hq))
      (applyAlias_preserves_isSome _ _ _
        (fun hh => hx p (List.mem_cons_self p rest) hh.symm) h)

lemma foldl_applyAlias_removes (pairs : List (String × String))
    (d : List (String × String)) (b : String)
    (hb : b ∈ pairs.map Prod.fst) (hg : ∀ p ∈ pairs, p.2 ≠ b) :
    dictGet (pairs.foldl applyAlias d) b = none := by
  induction pairs generalizing d with
  | nil => simp at hb
  | cons p rest ih =>
    rw [List.foldl_cons]
    by_cases hp : p.1 = b
    · have h0 : dictGet (applyAlias d p) b = none := by
        rw [← hp]; exact applyAlias_get_fst _ _
      exact foldl_applyAlias_preserves_none rest _ b
        (fun q hq => hg q (List.mem_cons_of_mem p hq)) h0
    · have hbr : b ∈ rest.map Prod.fst := by
        simp only [List.map_cons, List.mem_cons] at hb
        exact hb.resolve_left (fun hh => hp hh.symm)
      exact ih _ hbr (fun q hq => hg q (List.mem_cons_of_mem p hq))

lemma foldl_applyAlias_fills (pairs : List (String × String))
    (d : List (String × String)) (b g v : String)
    (hmem : (b, g) ∈ pairs) (hg : ∀ p ∈ pairs, p.1 ≠ g)
    (hnd : (pairs.map Prod.fst).Nodup) (h : dictGet d b = some v) :
    (dictGet (pairs.foldl applyAlias d) g).isSome := by
  induction pairs generalizing d with
  | nil => simp at hmem
  | cons p rest ih =>
    rw [List.foldl_cons]
    rcases List.mem_cons.mp hmem with heq | hrest
    · have hbg : b ≠ g := by
        have := hg p (List.mem_cons_self p rest)
        rw [← heq] at this
        exact this
      have h1 : (dictGet (applyAlias d p) g).isSome := by
        rw [← heq]
        unfold applyAlias
        rw [show dictGet d (b, g).1 = some v from h]
        rw [dictGet_pop_ne _ _ _ (fun hh => hbg hh.symm)]
        exact dictGet_setdefault_isSome _ _ _
      exact foldl_applyAlias_preserves_isSome rest _ g
        (fun q hq => hg q (List.mem_cons_of_mem p hq)) h1
    · have hne : p.1 ≠ b := by
        simp only [List.map_cons, List.nodup_cons] at hnd
        intro hh
        exact hnd.1 (hh ▸ List.mem_map_of_mem Prod.fst hrest)
      exact ih _ hrest (fun q hq => hg q (List.mem_cons_of_mem p hq))
        (by simp only [List.map_cons, List.nodup_cons] at hnd; exact hnd.2)
        (applyAlias_preserves_some _ _ _ _ (fun hh => hne hh.symm) h)

lemma badColumns_fst_ne_snd :
    ∀ q ∈ badColumns, ∀ p ∈ badColumns, p.1 ≠ q.2 := by decide

lemma badColumns_snd_ne_fst :
    ∀ q ∈ badColumns, ∀ p ∈ badColumns, p.2 ≠ q.1 := by decide

lemma badColumns_fst_nodup : (badColumns.map Prod.fst).Nodup := by decide

lemma toList_mk (l : List Char) : (String.mk l).toList = l := rfl

lemma dropWhile_head_not (p : Char → Bool) :
    ∀ (l : List Char) (c : Char) (cs : List Char),
      l.dropWhile p = c :: cs → p c = false := by
  intro l
  induction l with
  | nil => intro c cs h; simp [List.dropWhile] at h
  | cons a rest ih =>
    intro c cs h
    rw [List.dropWhile_cons] at h
    split at h
    · exact ih c cs h
    · rename_i ha
      cases h
      simpa using ha

lemma dropWhile_ne_colon (l : List Char) (h : ':' ∈ l) :
    ∃ t, l.dropWhile (fun c => !(c == ':')) = ':' :: t := by
  induction l with
  | nil => simp at h
  | cons a rest ih =>
    by_cases ha : a = ':'
    · subst ha
      exact ⟨rest, by simp [List.dropWhile_cons]⟩
    · have hmem : ':' ∈ rest := by
        rcases List.mem_cons.mp h with hh | hh
        · exact absurd hh.symm ha
        · exact hh
      obtain ⟨t, ht⟩ := ih hmem
      refine ⟨t, ?_⟩
      rw [List.dropWhile_cons, if_pos (by simp [ha]), ht]

lemma pyLstrip_head_not (s : String) (c : Char) (cs : List Char)
    (h : (pyLstripDashSpace s).toList = c :: cs) : c ≠ '-' ∧ c ≠ ' ' := by
  rw [pyLstripDashSpace, toList_mk] at h
  have := dropWhile_head_not _ _ _ _ h
  simp only [Bool.or_eq_false_iff, beq_eq_false_iff_ne, ne_eq] at this
  exact this

lemma canonicalizeKey_no_space (s : String) :
    ' ' ∉ (canonicalizeKey s).toList := by
  intro h
  rw [canonicalizeKey, toList_mk] at h
  obtain ⟨c, _, heq⟩ := List.mem_map.mp h
  by_cases hc : c = ' '
  · simp [hc] at heq
  · rw [if_neg (by simpa using hc)] at heq
    exact hc heq

lemma foldl_pages_eq (doc : Nat → Option (List (List String)))
    (l : List Nat) (acc : List RawRecord × List String) :
    l.foldl (fun acc pn =>
        (acc.1 ++ (pageStep (doc pn) pn).1,
         acc.2 ++ (pageStep (doc pn) pn).2)) acc =
      (acc.1 ++ (l.map fun p => (pageStep (doc p) p).1).flatten,
       acc.2 ++ (l.map fun p => (pageStep (doc p) p).2).flatten) := by
  induction l generalizing acc with
  | nil => simp
  | cons p rest ih =>
    rw [List.foldl_cons, ih]
    simp [List.append_assoc]

lemma runPages_fst (doc : Nat → Option (List (List String))) :
    (runPages doc).1 =
      (pipelinePages.map fun p => (pageStep (doc p) p).1).flatten := by
  rw [runPages, foldl_pages_eq]
  simp

lemma coerceRecord_fields (r : RawRecord) (e : ElementRecord)
    (h : coerceRecord r = Except.ok e) :
    e.code = r.code ∧ e.page_number = r.page_number := by
  unfold coerceRecord at h
  cases hp : pyFloat r.technicalValue with
  | none => rw [hp] at h; cases h
  | some v =>
    rw [hp] at h
    cases h
    exact ⟨rfl, rfl⟩

lemma coerceCatalogue_map_code_page (recs : List RawRecord)
    (out : List ElementRecord) (h : coerceCatalogue recs = Except.ok out) :
    out.map (fun e => (e.code, e.page_number)) =
      recs.map (fun r => (r.code, r.page_number)) := by
  induction recs generalizing out with
  | nil =>
    unfold coerceCatalogue at h
    cases h
    rfl
  | cons r rest ih =>
    unfold coerceCatalogue at h
    cases hc : coerceRecord r with
    | error m => rw [hc] at h; cases h
    | ok e =>
      cases hcr : coerceCatalogue rest with
      | error m => rw [hc, hcr] at h; cases h
      | ok es =>
        rw [hc, hcr] at h
        cases h
        obtain ⟨h1, h2⟩ := coerceRecord_fields r e hc
        simp [h1, h2, ih es hcr]

/-- Claim C1: alias reconciliation is fill-if-absent.  The two documented
evaluations hold, a canonical key already present after raw parsing keeps
its raw value (the aliased value never overwrites it), and when the
canonical key is absent from the raw parse while the malformed alias key
is present, the canonical key ends up populated. -/
theorem claim_C1 :
    parse_criteria "- Grip Is: open\n- Grip: closed" = [("grip", "closed")] ∧
    parse_criteria "- Grip Is: open" = [("grip", "open")] ∧
    (∀ (text b g v : String), (b, g) ∈ badColumns →
      dictGet (rawParseCriteria text) g = some v →
      dictGet (parse_criteria text) g = some v) ∧
    (∀ (text b g v : String), (b, g) ∈ badColumns →
      dictGet (rawParseCriteria text) g = none →
      dictGet (rawParseCriteria text) b = some v →
      (dictGet (parse_criteria text) g).isSome) := by
  refine ⟨by decide, by decide, ?_, ?_⟩
  · intro text b g v hm hs
    have hne : ∀ p ∈ badColumns, p.1 ≠ g :=
      fun p hp => badColumns_fst_ne_snd (b, g) hm p hp
    exact foldl_applyAlias_preserves_some badColumns _ g v hne hs
  · intro text b g v hm _hg hb
    have hne : ∀ p ∈ badColumns, p.1 ≠ g :=
      fun p hp => badColumns_fst_ne_snd (b, g) hm p hp
    exact foldl_applyAlias_fills badColumns _ b g v hm hne
      badColumns_fst_nodup hb

/-- Witness for C1: the canonical `grip` key parsed from the correctly
formatted bullet survives reconciliation with the `grip_is` alias. -/
theorem claim_C1_witness :
    dictGet (parse_criteria "- Grip Is: open\n- Grip: closed") "grip" =
      some "closed" :=
  claim_C1.2.2.1 "- Grip Is: open\n- Grip: closed" "grip_is" "grip" "closed"
    (by decide) (by decide)

/-- Claim C2: the end-to-end scenario.  A page-26 table whose extraction
returns the header row and the single `F4` data row produces exactly one
record with the stated fields (and no field for the dropped `element`
cell), surviving the final coercion with `technicalValue` `0.1`. -/
theorem claim_C2 :
    coerceCatalogue
      ((pageStep
        (some [["code", "name", "element", "technicalValue", "criteria"],
               ["F4", "Ballerina", "", "0.1",
                "- Hold: 5 seconds\n- Arm Position: upper"]]) 26).1) =
    Except.ok [{ code := "F4"
                 name := "Ballerina"
                 technicalValue := 1/10
                 page_number := 26
                 image := "/images/F4.jpg"
                 category := "flexibility"
                 criteria := [("hold", "5 seconds"),
                              ("arm_position", "upper")] }] := by
  have h : pyFloat "0.1" = some (1/10) := by
    rw [pyFloat, show pyFloatParts "0.1" =
      some { negative := false, intDigits := 0, fracDigits := 1, fracLen := 1,
             exp := 0 } from by decide]
    norm_num [partsValue]
  simp [pageStep, coerceCatalogue, coerceRecord, buildRow, h]
  constructor
  · decide
  · decide

/-- Claim C3: category derivation by ordered prefix rules, with the five
documented evaluations and the full order-sensitive case analysis. -/
theorem claim_C3 :
    (get_category "SP3" = "spin" ∧ get_category "ST2" = "static" ∧
     get_category "S5" = "strength" ∧ get_category "F4" = "flexibility" ∧
     get_category "X9" = "unknown") ∧
    ∀ code : String,
      (strStartsWith code "SP" = true → get_category code = "spin") ∧
      (strStartsWith code "SP" = false → strStartsWith code "ST" = true →
        get_category code = "static") ∧
      (strStartsWith code "SP" = false → strStartsWith code "ST" = false →
        strStartsWith code "S" = true → get_category code = "strength") ∧
      (strStartsWith code "SP" = false → strStartsWith code "ST" = false →
        strStartsWith code "S" = false → strStartsWith code "F" = true →
        get_category code = "flexibility") ∧
      (strStartsWith code "SP" = false → strStartsWith code "ST" = false →
        strStartsWith code "S" = false → strStartsWith code "F" = false →
        get_category code = "unknown") := by
  refine ⟨by decide, ?_⟩
  intro code
  refine ⟨?_, ?_, ?_, ?_, ?_⟩
  · intro h1; simp [get_category, h1]
  · intro h1 h2; simp [get_category, h1, h2]
  · intro h1 h2 h3; simp [get_category, h1, h2, h3]
  · intro h1 h2 h3 h4; simp [get_category, h1, h2, h3, h4]
  · intro h1 h2 h3 h4; simp [get_category, h1, h2, h3, h4]

/-- Witness for C3: a code with no recognized prefix is `unknown`. -/
theorem claim_C3_witness : get_category "Q7" = "unknown" :=
  (claim_C3.2 "Q7").2.2.2.2 (by decide) (by decide) (by decide) (by decide)

/-- Claim C4: each bullet fragment with a `':'` is split on the first
`':'` only (the key part contains no `':'` and key, colon and value part
reassemble to the fragment), fragments with no `':'` are silently dropped,
canonicalized keys contain no spaces, and the documented evaluation
holds. -/
theorem claim_C4 :
    parse_criteria "- Hold: 5 seconds\n- Arm Position: upper" =
      [("hold", "5 seconds"), ("arm_position", "upper")] ∧
    (∀ s : String, ':' ∈ s.toList →
      ':' ∉ (splitFirstColon s).1.toList ∧
      (splitFirstColon s).1.toList ++ ':' :: (splitFirstColon s).2.toList =
        s.toList) ∧
    (∀ (d : List (String × String)) (bullet : String),
      bullet.toList.contains ':' = false → processBullet d bullet = d) ∧
    (∀ s : String, ' ' ∉ (canonicalizeKey s).toList) := by
  refine ⟨by decide, ?_, ?_, canonicalizeKey_no_space⟩
  · intro s hs
    constructor
    · intro hmem
      rw [splitFirstColon, toList_mk] at hmem
      have := List.mem_takeWhile_imp hmem
      simp at this
    · obtain ⟨t, ht⟩ := dropWhile_ne_colon s.toList hs
      show s.toList.takeWhile (fun c => !(c == ':')) ++
        ':' :: (s.toList.dropWhile (fun c => !(c == ':'))).drop 1 = s.toList
      rw [ht]
      simp only [List.drop_succ_cons, List.drop_zero]
      rw [← ht]
      exact List.takeWhile_append_dropWhile _ _
  · intro d bullet h
    unfold processBullet
    rw [h]
    simp

/-- Witness for C4: the first-colon split of `"a:b:c"`. -/
theorem claim_C4_witness :
    ':' ∉ (splitFirstColon "a:b:c").1.toList ∧
    (splitFirstColon "a:b:c").1.toList ++
      ':' :: (splitFirstColon "a:b:c").2.toList = "a:b:c".toList :=
  claim_C4.2.1 "a:b:c" (by decide)

/-- Claim C5: the page-geometry resolvers are total with table-driven
overrides: outside the override sets both return exactly the defaults,
and each override page gets exactly its override value. -/
theorem claim_C5 : ∀ pn : Nat,
    (pn ≠ 26 → pn ≠ 54 → pn ≠ 76 → pn ≠ 84 →
      get_crop_boundaries pn = ⟨35, 45, 565, 775⟩) ∧
    (pn = 26 → get_crop_boundaries pn = ⟨35, 210, 565, 775⟩) ∧
    (pn = 54 ∨ pn = 76 ∨ pn = 84 →
      get_crop_boundaries pn = ⟨35, 75, 565, 775⟩) ∧
    (¬(pn = 29 ∨ pn = 30 ∨ pn = 31 ∨ pn = 32 ∨ pn = 33) →
      ¬(pn = 69 ∨ pn = 70 ∨ pn = 83) →
      get_vertical_lines pn = [35, 75, 175, 305, 350, 565]) ∧
    (pn = 29 ∨ pn = 30 ∨ pn = 31 ∨ pn = 32 ∨ pn = 33 →
      get_vertical_lines pn = [35, 75, 170, 305, 345, 564]) ∧
    (pn = 69 ∨ pn = 70 ∨ pn = 83 →
      get_vertical_lines pn = [35, 75, 175, 305, 350, 560]) := by
  intro pn
  refine ⟨?_, ?_, ?_, ?_, ?_, ?_⟩
  · intro h26 h54 h76 h84
    simp [get_crop_boundaries, h26, h54, h76, h84]
  · rintro rfl; decide
  · rintro (rfl | rfl | rfl) <;> decide
  · intro h1 h2
    simp [get_vertical_lines, h1, h2]
  · rintro (rfl | rfl | rfl | rfl | rfl) <;> decide
  · rintro (rfl | rfl | rfl) <;> decide

/-- Witness for C5: a non-override page gets the defaults and an override
page gets its override. -/
theorem claim_C5_witness :
    get_crop_boundaries 40 = ⟨35, 45, 565, 775⟩ ∧
    get_vertical_lines 30 = [35, 75, 170, 305, 345, 564] :=
  ⟨(claim_C5 40).1 (by decide) (by decide) (by decide) (by decide),
   (claim_C5 30).2.2.2.2.1 (Or.inr (Or.inl rfl))⟩

/-- Claim C6: a record whose technical value is not a numeric string makes
the batch coercion pass fail, and the failed run exports no artifact at
all (the export only ever receives the fully coerced catalogue). -/
theorem claim_C6 : ∀ recs : List RawRecord,
    (∃ r ∈ recs, pyFloat r.technicalValue = none) →
    exportedArtifact (coerceCatalogue recs) = none := by
  intro recs h
  induction recs with
  | nil => simp at h
  | cons r rest ih =>
    obtain ⟨r0, hr0, hn⟩ := h
    rcases List.mem_cons.mp hr0 with heq | hmem
    · subst heq
      have hc : coerceRecord r0 =
          Except.error ("could not convert string to float: " ++
            r0.technicalValue) := by
        unfold coerceRecord
        rw [hn]
      unfold coerceCatalogue
      rw [hc]
      rfl
    · have hrest := ih ⟨r0, hmem, hn⟩
      unfold coerceCatalogue
      cases hc : coerceRecord r
      · rfl
      · cases hcr : coerceCatalogue rest
        · rfl
        · rw [hcr] at hrest
          cases hrest

/-- Witness for C6: one accumulated record with the non-numeric technical
value `"n/a"` makes the run export nothing. -/
theorem claim_C6_witness :
    exportedArtifact (coerceCatalogue
      [{ code := "F4"
         name := "Ballerina"
         technicalValue := "n/a"
         criteria := []
         page_number := 26
         image := "/images/F4.jpg"
         category := "flexibility" }]) = none :=
  claim_C6 _ ⟨_, List.mem_singleton_self _, by decide⟩

/-- Claim C7: a page whose extraction finds no table contributes zero
records, emits the warning, and the run continues: the catalogue is still
the concatenation of every page's contribution. -/
theorem claim_C7 : ∀ (doc : Nat → Option (List (List String))) (pn : Nat),
    doc pn = none →
    (pageStep (doc pn) pn).1 = [] ∧
    (pageStep (doc pn) pn).2 =
      ["No table found in page " ++ toString pn] ∧
    (runPages doc).1 =
      (pipelinePages.map fun p => (pageStep (doc p) p).1).flatten := by
  intro doc pn h
  refine ⟨?_, ?_, runPages_fst doc⟩ <;> rw [h] <;> rfl

/-- Witness for C7: the all-pages-empty document contributes nothing on
page 26 with the warning emitted. -/
theorem claim_C7_witness :
    (pageStep ((fun _ : Nat => (none : Option (List (List String)))) 26)
      26).1 = [] ∧
    (pageStep ((fun _ : Nat => (none : Option (List (List String)))) 26)
      26).2 = ["No table found in page " ++ toString 26] ∧
    (runPages (fun _ => none)).1 =
      (pipelinePages.map fun p =>
        (pageStep ((fun _ : Nat =>
          (none : Option (List (List String)))) p) p).1).flatten :=
  claim_C7 (fun _ => none) 26 rfl

/-- Claim C8: the catalogue is the ordered concatenation of the per-page
batches over pages 26 through 100 in strictly increasing page order, rows
within a found table kept in source order, and the final coercion pass
preserves that order record for record. -/
theorem claim_C8 : ∀ doc : Nat → Option (List (List String)),
    (runPages doc).1 =
      (pipelinePages.map fun p => (pageStep (doc p) p).1).flatten ∧
    pipelinePages.Chain' (· < ·) ∧
    pipelinePages.head? = some 26 ∧
    pipelinePages.getLast? = some 100 ∧
    (∀ (pn : Nat) (hdr : List String) (rows : List (List String)),
      (pageStep (some (hdr :: rows)) pn).1 = rows.map (buildRow pn)) ∧
    (∀ (recs : List RawRecord) (out : List ElementRecord),
      coerceCatalogue recs = Except.ok out →
      out.map (fun e => (e.code, e.page_number)) =
        recs.map (fun r => (r.code, r.page_number))) := by
  intro doc
  have hchain : pipelinePages.Chain' (· < ·) := by
    have h : pipelinePages = 26 :: List.range' 27 74 := by decide
    rw [h]
    exact @List.chain_lt_range' 26 74 1 (by decide)
  exact ⟨runPages_fst doc, hchain, by decide, by decide,
    fun pn hdr rows => rfl, coerceCatalogue_map_code_page⟩

/-- Witness for C8: order preservation through the coercion pass at the
empty catalogue. -/
theorem claim_C8_witness :
    ([] : List ElementRecord).map (fun e => (e.code, e.page_number)) =
      ([] : List RawRecord).map (fun r => (r.code, r.page_number)) :=
  (claim_C8 (fun _ => none)).2.2.2.2.2 [] [] rfl

/-- Counterexample for C9: the source performs `lstrip("- ")`, which
removes every leading `'-'` or `' '`, not just one `"- "` marker; on the
fragment `"-- Hold: 5"` (which does not start with `"- "`, so the claim
says it is left unchanged) the code strips both dashes and the space. -/
theorem claim_C9_counterexample :
    pyLstripDashSpace "-- Hold: 5" = "Hold: 5" ∧
    stripOneLeadingMarker "-- Hold: 5" = "-- Hold: 5" ∧
    pyLstripDashSpace "-- Hold: 5" ≠ stripOneLeadingMarker "-- Hold: 5" ∧
    parse_criteria "-- Hold: 5" = [("hold", "5")] := by
  refine ⟨by decide, by decide, by decide, by decide⟩

/-- Claim C9 (amended): after trimming and splitting, ALL leading `'-'`
and `' '` characters are stripped from the first fragment; the stripped
fragment never begins with `'-'` or `' '`, and when the fragment begins
with a single `"- "` marker followed by neither a dash nor a space,
exactly that marker is removed; the first fragment the parser processes
therefore never starts with `'-'` or `' '`. -/
theorem claim_C9 :
    (∀ (s : String) (c : Char) (cs : List Char),
      (pyLstripDashSpace s).toList = c :: cs → c ≠ '-' ∧ c ≠ ' ') ∧
    (∀ (s : String) (c : Char) (cs : List Char),
      s.toList = '-' :: ' ' :: c :: cs → c ≠ '-' → c ≠ ' ' →
      (pyLstripDashSpace s).toList = c :: cs) ∧
    (∀ (text b : String) (rest : List String),
      bulletsOf text = b :: rest →
      ∀ (c : Char) (cs : List Char), b.toList = c :: cs →
        c ≠ '-' ∧ c ≠ ' ') := by
  refine ⟨pyLstrip_head_not, ?_, ?_⟩
  · intro s c cs h hc1 hc2
    rw [pyLstripDashSpace, toList_mk, h]
    have h1 : (c == '-' || c == ' ') = false := by
      simp [hc1, hc2]
    simp [List.dropWhile_cons, h1]
  · intro text b rest h c cs hb
    unfold bulletsOf at h
    cases hsp : pySplitBullets (pyStrip text) with
    | nil => rw [hsp] at h; cases h
    | cons b0 r0 =>
      rw [hsp] at h
      cases h
      exact pyLstrip_head_not b0 c cs hb

/-- Witness for C9: a first fragment with one marker keeps exactly the
rest. -/
theorem claim_C9_witness :
    (pyLstripDashSpace "- x").toList = 'x' :: [] :=
  claim_C9.2.1 "- x" 'x' [] (by decide) (by decide) (by decide)

/-- Claim C10: no malformed alias key of the `bad_columns` table survives
into the mapping returned by `parse_criteria`, for any input text. -/
theorem claim_C10 : ∀ (text : String) (kv : String × String),
    kv ∈ parse_criteria text → kv.1 ∉ badColumns.map Prod.fst := by
  intro text kv hkv hmem
  obtain ⟨q, hq, hq1⟩ := List.mem_map.mp hmem
  have hgoods : ∀ p ∈ badColumns, p.2 ≠ kv.1 := by
    intro p hp
    rw [← hq1]
    exact badColumns_snd_ne_fst q hq p hp
  have hnone : dictGet (parse_criteria text) kv.1 = none :=
    foldl_applyAlias_removes badColumns (rawParseCriteria text) kv.1 hmem
      hgoods
  have hfind : (parse_criteria text).find? (fun p => p.1 == kv.1) = none := by
    simpa [dictGet, Option.map_eq_none'] using hnone
  have := List.find?_eq_none.mp hfind kv hkv
  simp at this

/-- Witness for C10: the reconciled `grip` entry is not a malformed alias
key. -/
theorem claim_C10_witness :
    ("grip", "open").1 ∉ badColumns.map Prod.fst :=
  claim_C10 "- Grip Is: open" ("grip", "open") (by decide)
